import Mathlib

/-!
Verification of the table-to-chart shaping core of `pandasaddons`
(`src/plotting.py`, `src/randomdf.py`), shallowly embedded in Lean.

A numeric cell value is either a rational number or the not-a-number
marker; a row/column label is either a string or an integer (the two
label shapes actually exercised by the library: string column names and
integer/positional/date-derived indices, all of which render through
Python `str`).
-/

/-- A numeric cell value: a finite number or not-a-number (`float('nan')`). -/
inductive Val where
  | nan : Val
  | num : ℚ → Val
deriving DecidableEq, Repr

/-- A row or column label; `str` models string labels, `int` any
non-string label (Python `str()` renders it). -/
inductive Label where
  | str : String → Label
  | int : Int → Label
deriving DecidableEq, Repr

/-- Python `str(label)`: textual representation of a label. -/
def Label.toText : Label → String
  | .str s => s
  | .int n => toString n

/-- Whether a label is already textual (a string). -/
def Label.isText : Label → Bool
  | .str _ => true
  | .int _ => false

/-- `setcol` from `src/plotting.py`:
`np.isnan(x) → '#e2e2e2'`, `x < 0 → '#cc7878'`, else `'#a5bab7'`.
(For nan, `x < 0` is false in IEEE comparison, so the nan branch is
taken first exactly as in the source.) -/
def setcol : Val → String
  | .nan => "#e2e2e2"
  | .num x => if x < 0 then "#cc7878" else "#a5bab7"

/-- A dataframe: ordered row index, ordered column labels, and the cell
matrix in row-major order (`df.values`). -/
structure DF where
  index : List Label
  columns : List Label
  data : List (List Val)
deriving DecidableEq, Repr

/-- Rectangularity: every row of `df.values` has one entry per column. -/
def DF.rect (df : DF) : Prop :=
  ∀ r ∈ df.data, r.length = df.columns.length

/-- Well-formed table: as many data rows as index entries, rectangular,
and column labels unique (the data model requires unique column names). -/
def DF.wf (df : DF) : Prop :=
  df.data.length = df.index.length ∧ df.rect ∧ df.columns.Nodup

instance (df : DF) : Decidable df.rect := by
  unfold DF.rect; infer_instance

instance (df : DF) : Decidable df.wf := by
  unfold DF.wf; infer_instance

/-- Column extraction by position: `df[ts].values` for the column at
position `j` (column labels are unique in a well-formed table, so the
label lookup in the source is positional). -/
def DF.col (df : DF) (j : Nat) : List Val :=
  df.data.map (fun r => r.getD j .nan)

/-- The fixed 18-entry line-color palette `COLORS` from `src/plotting.py`. -/
def COLORS : List String :=
  ["#1f77b4", "#ff7f0e", "#ffbb78", "#2ca02c", "#98df8a", "#d62728",
   "#ff9896", "#9467bd", "#c5b0d5", "#8c564b", "#c49c94", "#e377c2",
   "#f7b6d2", "#7f7f7f", "#bcbd22", "#dbdb8d", "#17becf", "#9edae5"]

/-- One rendered line series: legend label, line color, the `(x, y)`
points of `plot.line`, and the `(x, y)` marker points of `plot.circle`
(empty when no markers are drawn). -/
structure Series where
  name : Label
  color : String
  points : List (Label × Val)
  markers : List (Label × Val)
deriving DecidableEq, Repr

/-- `plot_df` from `src/plotting.py`, restricted to the data it shapes:
`for idx, ts in enumerate(df)` iterates column labels in column order;
each column yields one line over `(df.index, df[ts].values)` with color
`COLORS[idx % len(COLORS)]`, plus circle markers at the same points
exactly when `style == 'o-'`. -/
def plot_df (df : DF) (style : String) : List Series :=
  df.columns.enum.map (fun p =>
    let pts := df.index.zip (df.col p.1)
    { name := p.2,
      color := COLORS.getD (p.1 % COLORS.length) "",
      points := pts,
      markers := if style = "o-" then pts else [] })

/-- The data `heatmap_df` hands to the renderer: the four parallel
columns of its `ColumnDataSource` (`xs`, `ys`, `value`, `color`) and the
two axis ranges passed to `figure` (`x_range`, `y_range`). -/
structure HeatPlot where
  xs : List String
  ys : List Label
  value : List Val
  color : List String
  x_range : List String
  y_range : List Label
deriving DecidableEq, Repr

/-- `heatmap_df` from `src/plotting.py`:
`x = list(map(str, df.index))`, `y = list(df.columns)` (note: only the
index is passed through `str`); the double loop `for xi in x: for yi in
y:` fills `xs`/`ys`; `value = df.values.ravel()` is the row-major
flattening; `color = [setcol(v) for v in value]`; the figure gets
`x_range=x` and `y_range=list(reversed(y))`. -/
def heatmap_df (df : DF) : HeatPlot :=
  let x := df.index.map Label.toText
  let y := df.columns
  let value := df.data.flatten
  { xs := x.flatMap (fun xi => y.map (fun _ => xi)),
    ys := x.flatMap (fun _ => y),
    value := value,
    color := value.map setcol,
    x_range := x,
    y_range := y.reverse }

/-- The cell records of the heatmap source: the `ColumnDataSource` holds
four parallel arrays, so record `k` is the `k`-th entry of each. -/
def HeatPlot.records (p : HeatPlot) : List (String × Label × Val × String) :=
  p.xs.zip (p.ys.zip (p.value.zip p.color))

/-- The spec's row-major per-cell enumeration of heatmap shaping (§4.3),
as a nested loop: for each row in table order, for each column in table
order, one record of the emitted row text, the column label, the cell
value and its classification.  Stated to be compared with the
parallel-array construction of `heatmap_df`. -/
def rowMajorRecords (df : DF) : List (String × Label × Val × String) :=
  (df.index.zip df.data).flatMap (fun p =>
    (df.columns.zip p.2).map (fun q => (p.1.toText, q.1, q.2, setcol q.2)))

/-- Python `str.lower` on the ASCII mode tokens used here: lowercase
every character. -/
def strLower (s : String) : String := ⟨s.data.map Char.toLower⟩

/-- The two shaping paths `iplot` can dispatch to. -/
inductive PlotMode where
  | heatmap : PlotMode
  | line : PlotMode
deriving DecidableEq, Repr

/-- The dispatch of `iplot` in `src/plotting.py`:
`if plottype.lower() == 'heatmap': ... else: ...`. -/
def iplot_mode (plottype : String) : PlotMode :=
  if strLower plottype = "heatmap" then .heatmap else .line

/-- The column-name computation of `RandomDataFrame.__init__` in
`src/randomdf.py`: start from the caller's list (empty when `None`),
extend with `'col' + str(i)` for `i in range(rng_start, size[1])` where
`rng_start = len(columns)` (or `0` for `None`), then truncate with
`[:size[1]]`. -/
def rdf_columns (columns : Option (List String)) (c : Nat) : List String :=
  let base := match columns with
    | none => []
    | some cs => cs
  let rngStart := match columns with
    | none => 0
    | some cs => cs.length
  (base ++ (List.range' rngStart (c - rngStart)).map
    (fun i => "col" ++ toString i)).take c

/-! ### Helper lemmas on zips of flattened lists -/

lemma zip_constmap {α β : Type _} (x : α) (Y : List β) :
    (Y.map (fun _ => x)).zip Y = Y.map (fun y => (x, y)) := by
  induction Y with
  | nil => rfl
  | cons b bs ih => simp only [List.map_cons, List.zip_cons_cons, ih]

lemma zip_flatMap_product {α β : Type _} (X : List α) (Y : List β) :
    (X.flatMap (fun xi => Y.map (fun _ => xi))).zip (X.flatMap (fun _ => Y))
      = X ×ˢ Y := by
  induction X with
  | nil => rfl
  | cons x xs ih =>
    simp only [List.flatMap_cons, List.product_cons]
    rw [List.zip_append (by simp), ih, zip_constmap]

lemma zip_block (t : String) (cols : List Label) (row : List Val) :
    (cols.map (fun _ => t)).zip (cols.zip (row.zip (row.map setcol)))
      = (cols.zip row).map (fun q => (t, q.1, q.2, setcol q.2)) := by
  induction cols generalizing row with
  | nil => rfl
  | cons c cs ih =>
    cases row with
    | nil => rfl
    | cons v vs => simp only [List.map_cons, List.zip_cons_cons, ih]

lemma records_eq_rowMajor_aux (cols : List Label) :
    ∀ (index : List Label) (data : List (List Val)),
      (∀ r ∈ data, r.length = cols.length) →
      ((index.map Label.toText).flatMap (fun xi => cols.map (fun _ => xi))).zip
        (((index.map Label.toText).flatMap (fun _ => cols)).zip
          (data.flatten.zip (data.flatten.map setcol)))
        = (index.zip data).flatMap (fun p =>
            (cols.zip p.2).map (fun q => (p.1.toText, q.1, q.2, setcol q.2)))
  | [], data, _ => by simp
  | i :: is, [], _ => by simp
  | i :: is, row :: rows, h => by
    have hrow : row.length = cols.length := h row (List.mem_cons_self row rows)
    have ih := records_eq_rowMajor_aux cols is rows
      (fun r hr => h r (List.mem_cons_of_mem _ hr))
    simp only [List.map_cons, List.flatMap_cons, List.flatten_cons,
      List.zip_cons_cons, List.map_append]
    rw [List.zip_append (by simp),
      List.zip_append (by simp [hrow]),
      List.zip_append (by simp [hrow]),
      zip_block, ih]

/-- A small concrete well-formed table used to instantiate theorems:
one row labelled `"r"`, one column labelled `"c"`, single cell `2`. -/
def dfOne : DF := ⟨[.str "r"], [.str "c"], [[.num 2]]⟩

/-- The spec's concrete scenario B: rows `0, 1`, one column `"x"`,
values `[[NaN], [-5]]`. -/
def dfB : DF := ⟨[.int 0, .int 1], [.str "x"], [[.nan], [.num (-5)]]⟩

/-- A well-formed table whose two rows carry the same label `"a"`. -/
def dfDupRows : DF := ⟨[.str "a", .str "a"], [.str "x"], [[.num 1], [.num 2]]⟩

/-- A well-formed table whose single column label is the integer `5`,
not a string. -/
def dfIntCol : DF := ⟨[.str "r"], [.int 5], [[.num 1]]⟩

/-- C1: `setcol` is total over numeric values including not-a-number and
returns exactly one of three fixed colors: the missing color on nan, the
negative color on finite values strictly below zero, and the
non-negative color otherwise (zero included). -/
theorem setcol_total_classification :
    setcol .nan = "#e2e2e2" ∧
    (∀ q : ℚ, q < 0 → setcol (.num q) = "#cc7878") ∧
    (∀ q : ℚ, 0 ≤ q → setcol (.num q) = "#a5bab7") ∧
    (∀ v : Val, setcol v = "#e2e2e2" ∨ setcol v = "#cc7878" ∨
      setcol v = "#a5bab7") := by
  refine ⟨rfl, ?_, ?_, ?_⟩
  · intro q hq
    simp [setcol, hq]
  · intro q hq
    simp [setcol, not_lt.mpr hq]
  · intro v
    cases v with
    | nan => exact Or.inl rfl
    | num q =>
      by_cases h : q < 0
      · exact Or.inr (Or.inl (by simp [setcol, h]))
      · exact Or.inr (Or.inr (by simp [setcol, h]))

/-- Witness for C1 at the concrete inputs `-1` and `0`. -/
theorem setcol_total_classification_spot :
    setcol (.num (-1)) = "#cc7878" ∧ setcol (.num 0) = "#a5bab7" :=
  ⟨setcol_total_classification.2.1 (-1) (by norm_num),
   setcol_total_classification.2.2.1 0 (by norm_num)⟩

/-- C4: `iplot` selects heatmap shaping iff the mode token lowercases to
`"heatmap"`; every other token, the empty string and `"bogus"` included,
selects line shaping, and dispatch always yields one of the two modes. -/
theorem iplot_mode_dispatch :
    (∀ s, iplot_mode s = PlotMode.heatmap ↔ strLower s = "heatmap") ∧
    (∀ s, iplot_mode s = PlotMode.heatmap ∨ iplot_mode s = PlotMode.line) ∧
    iplot_mode "HEATMAP" = PlotMode.heatmap ∧
    iplot_mode "HeatMap" = PlotMode.heatmap ∧
    iplot_mode "heatmap" = PlotMode.heatmap ∧
    iplot_mode "" = PlotMode.line ∧
    iplot_mode "bogus" = PlotMode.line ∧
    iplot_mode "linear" = PlotMode.line := by
  refine ⟨?_, ?_, by decide, by decide, by decide, by decide, by decide,
    by decide⟩
  · intro s
    unfold iplot_mode
    split_ifs with h <;> simp [h]
  · intro s
    unfold iplot_mode
    split_ifs <;> simp

/-- C8: the shaping functions are pure: their output is determined by
the visible contents of the table (index, columns, cell matrix) and the
style option alone, and a second call on the same table is
value-identical to the first. -/
theorem shaping_deterministic (df df' : DF) (style : String)
    (h1 : df.index = df'.index) (h2 : df.columns = df'.columns)
    (h3 : df.data = df'.data) :
    plot_df df style = plot_df df' style ∧
    heatmap_df df = heatmap_df df' ∧
    plot_df df style = plot_df df style ∧
    heatmap_df df = heatmap_df df := by
  obtain ⟨i, c, d⟩ := df
  obtain ⟨i', c', d'⟩ := df'
  cases h1
  cases h2
  cases h3
  exact ⟨rfl, rfl, rfl, rfl⟩

/-- Witness for C8 at the concrete table `dfOne`. -/
theorem shaping_deterministic_spot :
    plot_df dfOne "o-" = plot_df dfOne "o-" ∧
    heatmap_df dfOne = heatmap_df dfOne ∧
    plot_df dfOne "o-" = plot_df dfOne "o-" ∧
    heatmap_df dfOne = heatmap_df dfOne :=
  shaping_deterministic dfOne dfOne "o-" rfl rfl rfl

/-- C3: line shaping over a well-formed `R × C` table yields exactly one
series per column, in stable column order with nothing dropped or
duplicated (its legend names are precisely the column labels in order),
and each series holds exactly `R` points whose x-components are the
table's row index in order. -/
theorem plot_df_series_per_column (df : DF) (hwf : df.wf) (style : String) :
    (plot_df df style).map Series.name = df.columns ∧
    (plot_df df style).length = df.columns.length ∧
    ∀ s ∈ plot_df df style,
      s.points.length = df.index.length ∧
      s.points.map Prod.fst = df.index := by
  obtain ⟨hlen, hrect, -⟩ := hwf
  refine ⟨?_, by simp [plot_df], ?_⟩
  · unfold plot_df
    rw [List.map_map]
    exact List.enum_map_snd df.columns
  · intro s hs
    simp only [plot_df, List.mem_map] at hs
    obtain ⟨p, hp, rfl⟩ := hs
    have hcol : (df.col p.1).length = df.index.length := by
      simp [DF.col, hlen]
    constructor
    · simp [List.length_zip, hcol]
    · exact List.map_fst_zip _ _ (le_of_eq hcol.symm)

/-- Witness for C3 at the concrete table `dfOne`. -/
theorem plot_df_series_per_column_spot :
    (plot_df dfOne "o-").map Series.name = dfOne.columns ∧
    (plot_df dfOne "o-").length = dfOne.columns.length ∧
    ∀ s ∈ plot_df dfOne "o-",
      s.points.length = dfOne.index.length ∧
      s.points.map Prod.fst = dfOne.index :=
  plot_df_series_per_column dfOne (by decide) "o-"

/-- C7: the palette has exactly 18 entries, and the series at column
position `i` is colored with palette entry `i % 18`, so colors repeat
from the start of the palette when a table has more than 18 columns. -/
theorem plot_df_color_cycles (df : DF) (style : String) (i : Nat)
    (h : i < (plot_df df style).length) :
    COLORS.length = 18 ∧
    ((plot_df df style).get ⟨i, h⟩).color = COLORS.getD (i % 18) "" := by
  refine ⟨rfl, ?_⟩
  have hi : i < df.columns.enum.length := by
    simpa [plot_df] using h
  have h18 : COLORS.length = 18 := rfl
  simp [plot_df, List.get_eq_getElem, List.getElem_enum, h18]

/-- Witness for C7 at the concrete table `dfOne`, column position 0. -/
theorem plot_df_color_cycles_spot :
    COLORS.length = 18 ∧
    ((plot_df dfOne "o-").get ⟨0, by decide⟩).color = COLORS.getD (0 % 18) "" :=
  plot_df_color_cycles dfOne "o-" 0 (by decide)

/-- C9: a series carries circle markers exactly when the style option is
the literal string `"o-"`; then the markers coincide with the line's
points, and under any other style the marker list is empty. -/
theorem plot_df_markers_iff (df : DF) (style : String) (s : Series)
    (hs : s ∈ plot_df df style) :
    (style = "o-" → s.markers = s.points) ∧
    (style ≠ "o-" → s.markers = []) := by
  simp only [plot_df, List.mem_map] at hs
  obtain ⟨p, hp, rfl⟩ := hs
  constructor <;> intro h <;> simp [h]

/-- Witness for C9 at the concrete table `dfOne` with the default style
`"o-"` and its single series. -/
theorem plot_df_markers_iff_spot :
    (("o-" : String) = "o-" →
      (⟨.str "c", "#1f77b4", [(.str "r", .num 2)],
        [(.str "r", .num 2)]⟩ : Series).markers =
      (⟨.str "c", "#1f77b4", [(.str "r", .num 2)],
        [(.str "r", .num 2)]⟩ : Series).points) ∧
    (("o-" : String) ≠ "o-" →
      (⟨.str "c", "#1f77b4", [(.str "r", .num 2)],
        [(.str "r", .num 2)]⟩ : Series).markers = []) :=
  plot_df_markers_iff dfOne "o-"
    ⟨.str "c", "#1f77b4", [(.str "r", .num 2)], [(.str "r", .num 2)]⟩
    (by decide)

/-- C2: for a well-formed table (with distinct emitted row texts), the
heatmap source's parallel arrays line up into exactly `R × C` cell
records, equal to the spec's row-major nested enumeration — so each
record carries the original cell value at its (row, column) position and
its `setcol` color, every pair appears, and no pair repeats. -/
theorem heatmap_records_complete (df : DF) (hwf : df.wf)
    (hx : (df.index.map Label.toText).Nodup) :
    (heatmap_df df).records = rowMajorRecords df ∧
    (heatmap_df df).records.length = df.index.length * df.columns.length ∧
    ((heatmap_df df).xs.zip (heatmap_df df).ys).Nodup := by
  obtain ⟨hlen, hrect, hcols⟩ := hwf
  have hrec : (heatmap_df df).records = rowMajorRecords df :=
    records_eq_rowMajor_aux df.columns df.index df.data hrect
  refine ⟨hrec, ?_, ?_⟩
  · rw [hrec]
    unfold rowMajorRecords
    rw [List.length_flatMap]
    have hmap : (df.index.zip df.data).map
        (List.length ∘ fun p => (df.columns.zip p.2).map
          (fun q => (p.1.toText, q.1, q.2, setcol q.2)))
        = (df.index.zip df.data).map (fun _ => df.columns.length) := by
      apply List.map_congr_left
      intro p hp
      obtain ⟨a, b⟩ := p
      have h2 : b ∈ df.data := (List.of_mem_zip hp).2
      simp [Function.comp, List.length_zip, hrect b h2]
    rw [hmap, List.map_const', List.sum_replicate, List.length_zip, hlen,
      min_self, smul_eq_mul]
  · have hp : (heatmap_df df).xs.zip (heatmap_df df).ys
        = (df.index.map Label.toText) ×ˢ df.columns :=
      zip_flatMap_product _ _
    rw [hp]
    exact hx.product hcols

/-- Witness for C2 at the concrete table `dfB` (rows `0, 1`, one column
`"x"`, values `NaN` and `-5`). -/
theorem heatmap_records_complete_spot :
    (heatmap_df dfB).records = rowMajorRecords dfB ∧
    (heatmap_df dfB).records.length = dfB.index.length * dfB.columns.length ∧
    ((heatmap_df dfB).xs.zip (heatmap_df dfB).ys).Nodup :=
  heatmap_records_complete dfB (by decide) (by decide)

/-- C5 counterexample: on the well-formed table `dfIntCol`, whose single
column label is the integer `5`, the one emitted cell record carries the
column label `Label.int 5` unconverted — not a textual value — because
`heatmap_df` applies `str` to the index only. -/
theorem heatmap_col_label_not_text :
    dfIntCol.wf ∧
    (heatmap_df dfIntCol).records
      = [("r", Label.int 5, Val.num 1, "#a5bab7")] ∧
    (Label.int 5).isText = false := by
  exact ⟨by decide, by decide, rfl⟩

/-- C5 amended: every emitted cell record carries its row label as the
textual rendering of an index label, while its column label is one of
the table's column labels passed through unchanged (textual only when
the column label is already a string). -/
theorem heatmap_record_labels (df : DF)
    (rec : String × Label × Val × String)
    (h : rec ∈ (heatmap_df df).records) :
    (∃ i ∈ df.index, rec.1 = Label.toText i) ∧ rec.2.1 ∈ df.columns := by
  obtain ⟨x, y, vc⟩ := rec
  have h1 := (List.of_mem_zip h).1
  have h2 := (List.of_mem_zip (List.of_mem_zip h).2).1
  simp only [heatmap_df] at h1 h2
  constructor
  · rw [List.mem_flatMap] at h1
    obtain ⟨b, hb, hxb⟩ := h1
    rw [List.mem_map] at hxb hb
    obtain ⟨i, hi, rfl⟩ := hb
    obtain ⟨-, -, rfl⟩ := hxb
    exact ⟨i, hi, rfl⟩
  · rw [List.mem_flatMap] at h2
    obtain ⟨a, ha, hy⟩ := h2
    exact hy

/-- Witness for C5's amended statement at the concrete table `dfOne` and
its single record. -/
theorem heatmap_record_labels_spot :
    (∃ i ∈ dfOne.index, "r" = Label.toText i) ∧
    Label.str "c" ∈ dfOne.columns :=
  heatmap_record_labels dfOne ("r", .str "c", .num 2, "#a5bab7") (by decide)

/-- C6 counterexample: on the well-formed table `dfDupRows`, whose two
rows both carry the label `"a"`, the figure's x range is `["a", "a"]` —
the row texts in table order with the duplicate kept — not a distinct
(deduplicated, sorted) label set. -/
theorem heatmap_ranges_not_distinct :
    dfDupRows.wf ∧
    (heatmap_df dfDupRows).x_range = ["a", "a"] ∧
    ¬ (heatmap_df dfDupRows).x_range.Nodup := by
  exact ⟨by decide, rfl, by decide⟩

/-- C6 amended: alongside the cell records, heatmap shaping exposes as
axis ranges the row labels as text in table order (x range) and the
column labels in reversed table order (y range), with no deduplication
and no sorting. -/
theorem heatmap_ranges_raw (df : DF) :
    (heatmap_df df).x_range = df.index.map Label.toText ∧
    (heatmap_df df).y_range = df.columns.reverse :=
  ⟨rfl, rfl⟩

lemma rdf_columns_eq (columns : Option (List String)) (c : Nat) :
    rdf_columns columns c
      = ((columns.getD []) ++ (List.range' (columns.getD []).length
          (c - (columns.getD []).length)).map
          (fun i => "col" ++ toString i)).take c := by
  cases columns <;> rfl

/-- C10: for every size and every `columns` argument, the constructed
frame has exactly `c` column names: caller names first in order, then
generated names `col i` for the remaining positions up to `c - 1`, with
a too-long caller list truncated to its first `c` entries. -/
theorem rdf_columns_shape (columns : Option (List String)) (c : Nat) :
    (rdf_columns columns c).length = c ∧
    ∀ i, i < c →
      (rdf_columns columns c).getD i "" =
        if i < (columns.getD []).length then (columns.getD []).getD i ""
        else "col" ++ toString i := by
  rw [rdf_columns_eq]
  set base := columns.getD [] with hbase
  constructor
  · rw [List.length_take]
    simp only [List.length_append, List.length_map, List.length_range']
    omega
  · intro i hi
    have hi' : i < ((base ++ (List.range' base.length (c - base.length)).map
        (fun j => "col" ++ toString j)).take c).length := by
      rw [List.length_take]
      simp only [List.length_append, List.length_map, List.length_range']
      omega
    rw [List.getD_eq_getElem _ _ hi', List.getElem_take, List.getElem_append]
    by_cases hL : i < base.length
    · rw [dif_pos hL, if_pos hL, List.getD_eq_getElem _ _ hL]
    · rw [dif_neg hL, if_neg hL, List.getElem_map, List.getElem_range']
      have harg : base.length + 1 * (i - base.length) = i := by omega
      rw [harg]

/-- Witness for C10 with caller names `["A"]` and width 3: position 1
gets the generated name. -/
theorem rdf_columns_shape_spot :
    (rdf_columns (some ["A"]) 3).length = 3 ∧
    (rdf_columns (some ["A"]) 3).getD 1 "" =
      if 1 < ((some ["A"] : Option (List String)).getD []).length
      then ((some ["A"] : Option (List String)).getD []).getD 1 ""
      else "col" ++ toString 1 :=
  ⟨(rdf_columns_shape (some ["A"]) 3).1,
   (rdf_columns_shape (some ["A"]) 3).2 1 (by decide)⟩

example : setcol (.num (-3)) = "#cc7878" := by decide
example : setcol (.num 0) = "#a5bab7" := by decide
example : setcol .nan = "#e2e2e2" := by decide
example : iplot_mode "HEATMAP" = .heatmap := by decide
example : iplot_mode "bogus" = .line := by decide
example : rdf_columns (some ["A"]) 3 = ["A", "col1", "col2"] := by decide
example : rdf_columns (some ["A", "B", "C"]) 2 = ["A", "B"] := by decide
example : rdf_columns none 2 = ["col0", "col1"] := by decide
